import Mathlib

/-!
Verification development for the IL2235 lab-1 repository: a cyclic
executive (`src/CyclicSched/main.c`) and a preemptive fixed-priority
model (`src/FreeRTOS_Intro/main.c`) sharing one workload
(`src/common/workload.c`).  The C code is shallowly embedded below:
machine arithmetic is Nat/Int with explicit `% 2^32` where uint32
wrap-around matters, timestamps are Nat microseconds (the 64-bit
microsecond clock cannot wrap within the process lifetime), and the
external world (clock samples, GPIO switches, busy-wait results) is an
explicit oracle parameter.
-/

namespace Lab1

/-- The six workload tasks `job_A` .. `job_F` of `workload.c`. -/
inductive TaskId
  | A | B | C | D | E | F
deriving DecidableEq, BEq, Fintype

/-- Result of one workload invocation: `jobReturn_t` of `workload.h`
(`start`/`stop` timestamps from `time_us_64()`). -/
structure JobResult where
  start : Nat
  stop : Nat
deriving DecidableEq

/- Constants of `CyclicSched/main.c` and `workload.h`. -/

def MINOR_FRAME_MS : Nat := 5
def HYPERPERIOD_MS : Nat := 100
def NUM_FRAMES : Nat := 20
def MAX_TASKS_PER_FRAME : Nat := 4
def MAX_JOBS_PER_HYPERPERIOD : Nat := 50
def MAX_LOGS_PER_HYPERPERIOD : Nat := 50
def CYCLES_PER_MS : Nat := 150000
def CYCLES_PER_US : Nat := CYCLES_PER_MS / 1000

/-- Fixed busy-wait cycle counts `EXECUTION_TIME_A` .. `EXECUTION_TIME_F`
from `workload.h` (Task C's actual wait is GPIO-derived instead). -/
def execution_cycles : TaskId → Nat
  | .A => 1 * CYCLES_PER_MS - CYCLES_PER_US * 10
  | .B => 1 * CYCLES_PER_MS - CYCLES_PER_US * 10
  | .C => 2 * CYCLES_PER_MS - CYCLES_PER_US * 10
  | .D => 2 * CYCLES_PER_MS - CYCLES_PER_US * 10
  | .E => 4 * CYCLES_PER_MS - CYCLES_PER_US * 10
  | .F => 2 * CYCLES_PER_MS - CYCLES_PER_US * 10

/-- Nominal duration of a task in microseconds (cycle budget over the
150 cycles/us clock of `workload.h`). -/
def nominal_us (t : TaskId) : Nat := execution_cycles t / CYCLES_PER_US

/-- Task parameters `params_A` .. `params_F` of `FreeRTOS_Intro/main.c`
(period, implicit deadline, configured FreeRTOS priority). -/
structure TaskParams where
  period_ms : Nat
  deadline_ms : Nat
  priority : Nat
deriving DecidableEq

/-- The `static task_params_t params_X` blocks of `FreeRTOS_Intro/main.c`,
lines 100-152, exactly as configured in the source. -/
def params : TaskId → TaskParams
  | .A => ⟨10, 10, 5⟩
  | .B => ⟨5, 5, 6⟩
  | .C => ⟨25, 25, 1⟩
  | .D => ⟨50, 50, 3⟩
  | .E => ⟨50, 50, 2⟩
  | .F => ⟨20, 20, 4⟩

/-- The priorities the program itself documents in its startup banner
(`printf` lines 86-91 of `FreeRTOS_Intro/main.c`): B 6, A 5, F 4, C 3,
D 2, E 1, labelled "Priority Assignment: Rate Monotonic". -/
def banner_priority : TaskId → Nat
  | .A => 5
  | .B => 6
  | .C => 3
  | .D => 2
  | .E => 1
  | .F => 4

/-- The static 20-frame schedule table `schedule` of
`CyclicSched/main.c` lines 60-101, tasks in declared order. -/
def schedule : List (List TaskId) :=
  [ [.B, .A, .D],
    [.B, .F],
    [.B, .A],
    [.B, .C],
    [.B, .A, .F],
    [.B, .C],
    [.B, .A],
    [.B, .E],
    [.B, .A, .F],
    [.B],
    [.B, .A, .D],
    [.B, .C],
    [.B, .A, .F],
    [.B, .D],
    [.B, .A],
    [.B, .C],
    [.B, .A, .F],
    [.B, .E],
    [.B, .A],
    [.B] ]

/-- Number of occurrences of a task across the whole schedule table. -/
def occurrences (t : TaskId) : Nat :=
  (schedule.map (fun f => f.countP (fun x => x == t))).sum

/-- Combined nominal duration (microseconds) of the tasks of one frame. -/
def frame_load_us (f : List TaskId) : Nat :=
  (f.map nominal_us).sum

/-- The 8-bit value assembled from the eight GPIO switch reads
(`bit7 << 7 | ... | bit0`, identical in `workload.c` `job_C` and in both
schedulers' pre-checks).  Bit `i` of the oracle is `bit_i` of the code. -/
def switch_value (g : Fin 8 → Bool) : Nat :=
  (cond (g 7) 128 0) + (cond (g 6) 64 0) + (cond (g 5) 32 0) +
  (cond (g 4) 16 0) + (cond (g 3) 8 0) + (cond (g 2) 4 0) +
  (cond (g 1) 2 0) + (cond (g 0) 1 0)

/-- `task_c_wcet_us = (switch_value * 8000) / 256`: the predicted
duration both dispatchers derive from the sensor value (uint32, no
overflow possible for an 8-bit value). -/
def task_c_wcet_us (v : Nat) : Nat := v * 8000 / 256

/-- `uint32_t delay_us = ((switch_value * 8000) / 256) - 10;` of
`workload.c` `job_C`: uint32 subtraction, so for a mapped value below
10 the result wraps around 2^32 instead of clamping at zero. -/
def jobC_delay_us (v : Nat) : Nat :=
  (v * 8000 / 256 + (2 ^ 32 - 10)) % 2 ^ 32

/-- `uint32_t delay_cycles = delay_us * CYCLES_PER_US;` of `workload.c`
`job_C` (uint32 multiplication, wraps mod 2^32). -/
def jobC_delay_cycles (v : Nat) : Nat :=
  jobC_delay_us v * CYCLES_PER_US % 2 ^ 32

/-- Job outcome as printed by both reports. -/
inductive Status
  | OK | MISS | SKIPPED
deriving DecidableEq

/-- One entry of `job_log` in `CyclicSched/main.c` (`job_record_t`). -/
structure JobRecord where
  frame : Nat
  task : TaskId
  release_time : Nat
  start_time : Nat
  completion_time : Nat
  exec_time : Nat
  deadline : Nat
  deadline_missed : Bool
deriving DecidableEq

/-- Status classification of `print_hyperperiod_report`
(`CyclicSched/main.c` lines 112-120): SKIPPED when `exec_time == 0 &&
deadline_missed`, else MISS when `deadline_missed`, else OK. -/
def report_status (r : JobRecord) : Status :=
  if r.exec_time = 0 ∧ r.deadline_missed then .SKIPPED
  else if r.deadline_missed then .MISS
  else .OK

/-- Per-task oracle for one dispatch decision: the GPIO switch states,
the `time_us_64()` sample taken just before the Task C slack check, and
the `jobReturn_t` the workload would produce if executed. -/
structure TaskOracle where
  gpio : Fin 8 → Bool
  check_time : Nat
  result : JobResult

/-- The Task C skip pre-check of `frame_callback` (`CyclicSched/main.c`
lines 168-189): taken exactly when the task is `job_C` and
`(int64_t)frame_deadline - (int64_t)current_time <
(int64_t)task_c_wcet_us`. -/
def cyc_skip (fd : Nat) (t : TaskId) (o : TaskOracle) : Bool :=
  decide (t = TaskId.C) &&
  decide ((fd : Int) - (o.check_time : Int) <
    (task_c_wcet_us (switch_value o.gpio) : Int))

/-- The record `frame_callback` writes for one task of the frame: the
skip branch (lines 192-199) or the post-execution branch (lines
220-227).  `exec_time` is `result.stop - result.start`;
`deadline_missed` is `result.stop > frame_deadline`. -/
def cyc_record (fs fd lf : Nat) (t : TaskId) (o : TaskOracle) : JobRecord :=
  if cyc_skip fd t o then
    { frame := lf, task := t, release_time := fs, start_time := 0,
      completion_time := 0, exec_time := 0, deadline := fd,
      deadline_missed := true }
  else
    { frame := lf, task := t, release_time := fs,
      start_time := o.result.start, completion_time := o.result.stop,
      exec_time := o.result.stop - o.result.start, deadline := fd,
      deadline_missed := decide (fd < o.result.stop) }

/-- Whether the task attempt bumps the miss counters and the red LED:
always on a skip (lines 203-207), else on `result.stop >
frame_deadline` (lines 232-237). -/
def cyc_counts_miss (fd : Nat) (t : TaskId) (o : TaskOracle) : Bool :=
  cyc_skip fd t o || decide (fd < o.result.stop)

/-- Global state of the cyclic executive (`CyclicSched/main.c` lines
37-46 plus LED toggle counts standing in for the two `BSP_ToggleLED`
outputs).  `job_log`/`job_count` are one bounded list. -/
structure CycState where
  current_frame : Nat
  job_log : List JobRecord
  hyperperiod_count : Nat
  scheduler_start_time : Nat
  misses_current : Nat
  misses_total : Nat
  red_toggles : Nat
  green_toggles : Nat
deriving DecidableEq

/-- Bounded append into `job_log`: a record is stored only while
`job_count < MAX_JOBS_PER_HYPERPERIOD` (lines 191 and 219); an append
beyond capacity is dropped. -/
def cyc_append (log : List JobRecord) (r : JobRecord) : List JobRecord :=
  if log.length < MAX_JOBS_PER_HYPERPERIOD then log ++ [r] else log

/-- Processing of one task of the active frame by `frame_callback`:
write the (skip or execution) record into the log if there is room, and
on a skip or a deadline miss bump both miss counters and toggle the red
LED.  The counter and LED updates are outside the capacity guard, as in
the source. -/
def step_task (fs fd lf : Nat) (t : TaskId) (o : TaskOracle)
    (s : CycState) : CycState :=
  let log' := cyc_append s.job_log (cyc_record fs fd lf t o)
  if cyc_counts_miss fd t o then
    { s with job_log := log',
             misses_current := s.misses_current + 1,
             misses_total := s.misses_total + 1,
             red_toggles := s.red_toggles + 1 }
  else
    { s with job_log := log' }

/-- The `for` loop of `frame_callback` over the tasks of the frame, in
declared order; `i` is the loop index used to address the oracle. -/
def step_tasks (fs fd lf : Nat) (ts : List TaskId)
    (orc : Nat → TaskOracle) (i : Nat) (s : CycState) : CycState :=
  match ts with
  | [] => s
  | t :: rest =>
      step_tasks fs fd lf rest orc (i + 1) (step_task fs fd lf t (orc i) s)

/-- Oracle for one timer tick: the `time_us_64()` read at callback
entry and the per-task oracles for the frame body. -/
structure TickOracle where
  entry_time : Nat
  task : Nat → TaskOracle

/-- The frame-body part of `frame_callback` (lines 151-241): capture
`scheduler_start_time` on the very first tick, derive `frame_start =
scheduler_start_time + current_frame * MINOR_FRAME_MS * 1000` and
`frame_deadline = frame_start + MINOR_FRAME_MS * 1000`, then run the
tasks of `schedule[current_frame % NUM_FRAMES]`.  In the source
`current_frame` is `uint32_t` and `MINOR_FRAME_MS`/`1000` are `int`, so
the product `current_frame * MINOR_FRAME_MS * 1000` is uint32
arithmetic and wraps mod 2^32 (from tick 858994 onward); only the final
addition to the `uint64_t` start time is 64-bit. -/
def frame_tasks (s : CycState) (o : TickOracle) : CycState :=
  let base := if s.current_frame = 0 then o.entry_time
              else s.scheduler_start_time
  let lf := s.current_frame % NUM_FRAMES
  let fs := base + (s.current_frame * (MINOR_FRAME_MS * 1000)) % 2 ^ 32
  let fd := fs + MINOR_FRAME_MS * 1000
  step_tasks fs fd lf (schedule.getD lf []) o.task 0
    { s with scheduler_start_time := base }

/-- One full `frame_callback` invocation: frame body, `current_frame++`,
and at a hyperperiod boundary (`current_frame % NUM_FRAMES == 0`) the
green-LED toggle, the report (pure output), and the reset of
`job_count` and `deadline_misses_current` (lines 243-257);
`deadline_misses_total` is never reset. -/
def frame_callback (s : CycState) (o : TickOracle) : CycState :=
  let s1 := frame_tasks s o
  let s2 := { s1 with current_frame := s1.current_frame + 1 }
  if s2.current_frame % NUM_FRAMES = 0 then
    { s2 with green_toggles := s2.green_toggles + 1,
              job_log := [],
              misses_current := 0,
              hyperperiod_count := s2.hyperperiod_count + 1 }
  else s2

/-- State at program start: all globals zero-initialised. -/
def init_state : CycState :=
  { current_frame := 0, job_log := [], hyperperiod_count := 0,
    scheduler_start_time := 0, misses_current := 0, misses_total := 0,
    red_toggles := 0, green_toggles := 0 }

/-- The cyclic executive after `n` timer ticks, driven by a per-tick
oracle. -/
def run_cyclic (o : Nat → TickOracle) : Nat → CycState
  | 0 => init_state
  | n + 1 => frame_callback (run_cyclic o n) (o n)

/-- Number of records `frame_callback` has appended since the last
hyperperiod boundary once `m` frames of the hyperperiod are done:
the summed sizes of the first `m` schedule entries. -/
def logged_in (m : Nat) : Nat :=
  ((schedule.take m).map List.length).sum

/- ------------------------------------------------------------------
   The preemptive fixed-priority model (`FreeRTOS_Intro/main.c`).
   ------------------------------------------------------------------ -/

/-- One entry of `log_buffer` (`log_entry_t`, lines 17-26). -/
structure LogEntry where
  task : TaskId
  release_time : Nat
  start_time : Nat
  finish_time : Nat
  exec_time : Nat
  deadline : Nat
  deadline_missed : Bool
  skipped : Bool
deriving DecidableEq

/-- Oracle for one iteration of `periodic_task`: GPIO switches, the
`time_us_64()` sample of the Task C pre-check, and the workload result. -/
structure IterOracle where
  gpio : Fin 8 → Bool
  check_time : Nat
  result : JobResult

/-- `release_time_us = scheduler_start_time_us + job_count * period_ms *
1000` (line 210), for the `n`-th job of task `t`. -/
def p_release (t : TaskId) (base n : Nat) : Nat :=
  base + n * ((params t).period_ms * 1000)

/-- `deadline_us = release_time_us + deadline_ms * 1000` (line 211). -/
def p_deadline (t : TaskId) (base n : Nat) : Nat :=
  p_release t base n + (params t).deadline_ms * 1000

/-- The Task C skip pre-check of `periodic_task` (lines 215-236):
`skip_execution` is set exactly when the task's job function is `job_C`
and `(int64_t)deadline_us - (int64_t)current_time <
(int64_t)task_c_wcet_us`. -/
def p_skip (t : TaskId) (dl : Nat) (o : IterOracle) : Bool :=
  decide (t = TaskId.C) &&
  decide ((dl : Int) - (o.check_time : Int) <
    (task_c_wcet_us (switch_value o.gpio) : Int))

/-- The log entry one iteration of `periodic_task` submits: the skipped
entry of lines 246-253 (start/finish/exec 0, missed and skipped true),
or the execution entry of lines 274-281 with `deadline_missed =
result.stop > deadline_us`.  Every iteration submits exactly one entry. -/
def p_iteration (t : TaskId) (base n : Nat) (o : IterOracle) : LogEntry :=
  let release := p_release t base n
  let dl := p_deadline t base n
  if p_skip t dl o then
    { task := t, release_time := release, start_time := 0,
      finish_time := 0, exec_time := 0, deadline := dl,
      deadline_missed := true, skipped := true }
  else
    { task := t, release_time := release, start_time := o.result.start,
      finish_time := o.result.stop,
      exec_time := o.result.stop - o.result.start, deadline := dl,
      deadline_missed := decide (dl < o.result.stop), skipped := false }

/-- Bounded append into `log_buffer`: stored only while `log_count <
MAX_LOGS_PER_HYPERPERIOD` (lines 245 and 273). -/
def p_append (log : List LogEntry) (e : LogEntry) : List LogEntry :=
  if log.length < MAX_LOGS_PER_HYPERPERIOD then log ++ [e] else log

/-- Effect of one `periodic_task` iteration on the shared log buffer. -/
def p_step (t : TaskId) (base n : Nat) (o : IterOracle)
    (log : List LogEntry) : List LogEntry :=
  p_append log (p_iteration t base n o)

/-- The entries task `t` has submitted after its first `n` loop
iterations (`job_count` goes 0, 1, ...; the code increments it once per
iteration whether or not the job was skipped). -/
def run_task_log (t : TaskId) (base : Nat) (orc : Nat → IterOracle) :
    Nat → List LogEntry
  | 0 => []
  | n + 1 => run_task_log t base orc n ++ [p_iteration t base n (orc n)]

/-- Status classification of `monitor_task` (lines 333-342): SKIPPED
when the `skipped` flag is set, else MISS when `deadline_missed`, else
OK. -/
def monitor_status (e : LogEntry) : Status :=
  if e.skipped then .SKIPPED
  else if e.deadline_missed then .MISS
  else .OK

/-- `deadline_misses` of the monitor report: incremented for every
entry that is skipped or deadline-missed (lines 333-339), computed
solely from the entries present in the log. -/
def monitor_misses (log : List LogEntry) : Nat :=
  log.countP (fun e => e.skipped || e.deadline_missed)

/-- `skipped_count` of the monitor report (line 335), computed solely
from the entries present in the log. -/
def monitor_skipped (log : List LogEntry) : Nat :=
  log.countP (fun e => e.skipped)

/- ------------------------------------------------------------------
   Concrete inputs used by the witness theorems.
   ------------------------------------------------------------------ -/

/-- All eight switches off: sensor value 0. -/
def gpio_zero : Fin 8 → Bool := fun _ => false

/-- All eight switches on: sensor value 255. -/
def gpio_max : Fin 8 → Bool := fun _ => true

/-- A benign task oracle: sensor 0, check at time 0, a 1 us execution. -/
def w_task_oracle : TaskOracle :=
  { gpio := gpio_zero, check_time := 0, result := { start := 1, stop := 2 } }

/-- A tick oracle that always reads clock 0 at entry and uses the
benign task oracle everywhere. -/
def w_tick : Nat → TickOracle :=
  fun _ => { entry_time := 0, task := fun _ => w_task_oracle }

/-- A task oracle that makes the Task C pre-check fire (sensor 255,
no slack left). -/
def w_skip_oracle : TaskOracle :=
  { gpio := gpio_max, check_time := 5000,
    result := { start := 0, stop := 0 } }

/-- A benign iteration oracle for the priority model. -/
def w_iter : Nat → IterOracle :=
  fun _ => { gpio := gpio_zero, check_time := 0,
             result := { start := 1, stop := 2 } }

/-- An iteration oracle that makes the Task C pre-check fire. -/
def w_iter_skip : IterOracle :=
  { gpio := gpio_max, check_time := 30000,
    result := { start := 0, stop := 0 } }

/-- A default record used with `List.getD` in indexed statements. -/
def dflt_entry : LogEntry :=
  { task := .A, release_time := 0, start_time := 0, finish_time := 0,
    exec_time := 0, deadline := 0, deadline_missed := false,
    skipped := false }

/-- A cyclic-model job log already at capacity. -/
def w_full_cyc_log : List JobRecord :=
  List.replicate MAX_JOBS_PER_HYPERPERIOD
    (cyc_record 0 5000 0 TaskId.B w_task_oracle)

/-- A cyclic-model state whose log is at capacity. -/
def w_full_state : CycState :=
  { init_state with job_log := w_full_cyc_log }

/-- A priority-model log buffer already at capacity. -/
def w_full_p_log : List LogEntry :=
  List.replicate MAX_LOGS_PER_HYPERPERIOD dflt_entry

/- ==================================================================
   Theorems.  First a block of helper lemmas about the cyclic state
   machine, then the claim theorems.
   ================================================================== -/

/-- Both branches of the per-task record carry the frame start as the
release time. -/
theorem cyc_record_release (fs fd lf : Nat) (t : TaskId) (o : TaskOracle) :
    (cyc_record fs fd lf t o).release_time = fs := by
  unfold cyc_record
  split <;> rfl

/-- Both branches of the priority-model entry carry `p_release` as the
release time. -/
theorem p_iteration_release (t : TaskId) (base n : Nat) (o : IterOracle) :
    (p_iteration t base n o).release_time = p_release t base n := by
  simp only [p_iteration]
  split <;> rfl

/-- `step_task` only touches the log, the miss counters and the red
LED. -/
theorem step_task_preserves (fs fd lf : Nat) (t : TaskId) (o : TaskOracle)
    (s : CycState) :
    (step_task fs fd lf t o s).current_frame = s.current_frame ∧
    (step_task fs fd lf t o s).scheduler_start_time =
      s.scheduler_start_time := by
  simp only [step_task]
  split <;> exact ⟨rfl, rfl⟩

/-- `step_tasks` only touches the log, the miss counters and the red
LED. -/
theorem step_tasks_preserves (fs fd lf : Nat) (ts : List TaskId)
    (orc : Nat → TaskOracle) :
    ∀ i s, (step_tasks fs fd lf ts orc i s).current_frame =
        s.current_frame ∧
      (step_tasks fs fd lf ts orc i s).scheduler_start_time =
        s.scheduler_start_time := by
  induction ts with
  | nil => intro i s; exact ⟨rfl, rfl⟩
  | cons t rest ih =>
      intro i s
      have h1 := step_task_preserves fs fd lf t (orc i) s
      have h2 := ih (i + 1) (step_task fs fd lf t (orc i) s)
      exact ⟨h2.1.trans h1.1, h2.2.trans h1.2⟩

/-- One task step never decreases the total miss counter. -/
theorem step_task_total_le (fs fd lf : Nat) (t : TaskId) (o : TaskOracle)
    (s : CycState) :
    s.misses_total ≤ (step_task fs fd lf t o s).misses_total := by
  simp only [step_task]
  split
  · exact Nat.le_succ _
  · exact Nat.le_refl _

/-- A whole frame body never decreases the total miss counter. -/
theorem step_tasks_total_le (fs fd lf : Nat) (ts : List TaskId)
    (orc : Nat → TaskOracle) :
    ∀ i s, s.misses_total ≤ (step_tasks fs fd lf ts orc i s).misses_total := by
  induction ts with
  | nil => intro i s; exact Nat.le_refl _
  | cons t rest ih =>
      intro i s
      exact (step_task_total_le fs fd lf t (orc i) s).trans
        (ih (i + 1) (step_task fs fd lf t (orc i) s))

/-- The frame body leaves `current_frame` unchanged. -/
theorem frame_tasks_cf (s : CycState) (o : TickOracle) :
    (frame_tasks s o).current_frame = s.current_frame := by
  simp only [frame_tasks]
  exact (step_tasks_preserves _ _ _ _ _ _ _).1

/-- After the frame body, `scheduler_start_time` is the captured base:
the entry clock on the very first tick, otherwise the stored value. -/
theorem frame_tasks_sst (s : CycState) (o : TickOracle) :
    (frame_tasks s o).scheduler_start_time =
      if s.current_frame = 0 then o.entry_time
      else s.scheduler_start_time := by
  simp only [frame_tasks]
  exact (step_tasks_preserves _ _ _ _ _ _ _).2

/-- The frame body never decreases the total miss counter. -/
theorem frame_tasks_total_le (s : CycState) (o : TickOracle) :
    s.misses_total ≤ (frame_tasks s o).misses_total := by
  simp only [frame_tasks]
  exact step_tasks_total_le _ _ _ _ _ _
    { s with scheduler_start_time :=
        if s.current_frame = 0 then o.entry_time
        else s.scheduler_start_time }

/-- How one whole `frame_callback` relates to its frame body: the total
miss counter and start time pass through, `current_frame` increments,
and at a hyperperiod boundary the log and the per-hyperperiod counter
are reset while otherwise they pass through. -/
theorem frame_callback_parts (s : CycState) (o : TickOracle) :
    (frame_callback s o).misses_total = (frame_tasks s o).misses_total ∧
    (frame_callback s o).scheduler_start_time =
      (frame_tasks s o).scheduler_start_time ∧
    (frame_callback s o).current_frame = s.current_frame + 1 ∧
    (if (s.current_frame + 1) % NUM_FRAMES = 0 then
      (frame_callback s o).job_log = [] ∧
      (frame_callback s o).misses_current = 0
    else
      (frame_callback s o).job_log = (frame_tasks s o).job_log ∧
      (frame_callback s o).misses_current =
        (frame_tasks s o).misses_current) := by
  have hcf := frame_tasks_cf s o
  simp only [frame_callback, hcf]
  by_cases h : (s.current_frame + 1) % NUM_FRAMES = 0 <;>
    simp [h]

/-- After `n` ticks the dispatcher has advanced `current_frame` to `n`. -/
theorem run_current_frame (o : Nat → TickOracle) :
    ∀ n, (run_cyclic o n).current_frame = n := by
  intro n
  induction n with
  | zero => rfl
  | succ n ih =>
      show (frame_callback (run_cyclic o n) (o n)).current_frame = n + 1
      rw [(frame_callback_parts _ _).2.2.1, ih]

/-- From the first tick on, `scheduler_start_time` stays the clock value
captured at the first callback. -/
theorem run_sst (o : Nat → TickOracle) :
    ∀ n, (run_cyclic o (n + 1)).scheduler_start_time =
      (o 0).entry_time := by
  intro n
  induction n with
  | zero =>
      show (frame_callback (run_cyclic o 0) (o 0)).scheduler_start_time = _
      rw [(frame_callback_parts _ _).2.1, frame_tasks_sst]
      rfl
  | succ n ih =>
      show (frame_callback (run_cyclic o (n + 1))
        (o (n + 1))).scheduler_start_time = _
      rw [(frame_callback_parts _ _).2.1, frame_tasks_sst,
        run_current_frame]
      simpa using ih

/-- C1.  The configured FreeRTOS task parameters do NOT assign
priorities in rate-monotonic order, contradicting the program's own
startup banner: Task_C (period 25 ms) is given priority 1, strictly
below Task_D (period 50 ms, priority 3) and Task_E (period 50 ms,
priority 2), while the banner the program prints documents the
rate-monotonic assignment C 3, D 2, E 1.  The banner priorities do
satisfy the rate-monotonic rule for every pair of tasks; the configured
ones violate it at the pairs (C, D) and (C, E). -/
theorem c1_rate_monotonic_code_bug :
    (params TaskId.C).period_ms < (params TaskId.D).period_ms ∧
    (params TaskId.C).period_ms < (params TaskId.E).period_ms ∧
    (params TaskId.C).priority < (params TaskId.D).priority ∧
    (params TaskId.C).priority < (params TaskId.E).priority ∧
    (params TaskId.C).priority = 1 ∧
    (params TaskId.D).priority = 3 ∧
    (params TaskId.E).priority = 2 ∧
    banner_priority TaskId.C = 3 ∧
    banner_priority TaskId.D = 2 ∧
    banner_priority TaskId.E = 1 ∧
    (∀ t u : TaskId, (params t).period_ms < (params u).period_ms →
      banner_priority u < banner_priority t) ∧
    ¬ (∀ t u : TaskId, (params t).period_ms < (params u).period_ms →
      (params u).priority < (params t).priority) := by
  decide

/-- C2 counterexample.  The claim "every task's total occurrences
across the 20 frames equal hyperperiod / period" is false on the
schedule table: Task_D (period 50 ms) occurs in frames 0, 10 and 13,
hence 3 times, while 100 / 50 = 2. -/
theorem c2_counterexample_task_D :
    ¬ (∀ t : TaskId,
        occurrences t = HYPERPERIOD_MS / (params t).period_ms) ∧
    occurrences TaskId.D = 3 ∧
    HYPERPERIOD_MS / (params TaskId.D).period_ms = 2 := by
  decide

/-- C2 amended.  Every task except Task_D occurs exactly
hyperperiod / period times in the schedule table (A 10, B 20, C 4, E 2,
F 5); Task_D occurs 3 times, one more than 100 / 50 = 2. -/
theorem c2_occurrences_amended :
    (∀ t : TaskId, t ≠ TaskId.D →
      occurrences t = HYPERPERIOD_MS / (params t).period_ms) ∧
    occurrences TaskId.D = 3 := by
  decide

/-- Witness for C2 amended at Task_A: A ≠ D and A occurs 100 / 10 = 10
times. -/
theorem c2_occurrences_amended_witness :
    TaskId.A ≠ TaskId.D ∧
    occurrences TaskId.A = HYPERPERIOD_MS / (params TaskId.A).period_ms :=
  ⟨by decide, c2_occurrences_amended.1 TaskId.A (by decide)⟩

/-- C6.  At sensor value 0 the dispatcher's predicted duration is 0 and
the pre-check passes even with zero slack, but `job_C`'s own delay
computation `((0 * 8000) / 256) - 10` underflows the uint32: instead of
clamping at zero it wraps to 4294967286 us, and the cycle count wraps to
4294965796 cycles — more than 286 whole hyperperiods of busy-wait, not
an approximately zero duration. -/
theorem c6_jobC_uint32_underflow_code_bug :
    switch_value gpio_zero = 0 ∧
    task_c_wcet_us (switch_value gpio_zero) = 0 ∧
    cyc_skip 5000 TaskId.C
      { gpio := gpio_zero, check_time := 5000,
        result := { start := 0, stop := 0 } } = false ∧
    jobC_delay_us 0 = 4294967286 ∧
    jobC_delay_cycles 0 = 4294965796 ∧
    286 * (HYPERPERIOD_MS * CYCLES_PER_MS) < jobC_delay_cycles 0 := by
  decide

/-- C9 counterexample.  The schedule table contains no frame with four
tasks (every frame holds at most three) and no frame whose combined
nominal durations exceed the 5 ms minor-frame length, so the claimed
documented overloaded frame does not exist. -/
theorem c9_counterexample_no_overloaded_frame :
    (¬ ∃ f ∈ schedule, 4 ≤ f.length) ∧
    (¬ ∃ f ∈ schedule, MINOR_FRAME_MS * 1000 < frame_load_us f) := by
  decide

/-- C9 amended.  The table reserves room for four tasks per frame
(`MAX_TASKS_PER_FRAME = 4`), but every frame of the actual schedule
holds at most three tasks and its combined nominal durations stay
within the 5 ms minor-frame length (the fullest frames, 7 and 17, carry
4980 us of nominal load). -/
theorem c9_no_overload_amended :
    MAX_TASKS_PER_FRAME = 4 ∧
    schedule.all (fun f =>
      decide (f.length ≤ 3) &&
      decide (frame_load_us f ≤ MINOR_FRAME_MS * 1000)) = true ∧
    frame_load_us [TaskId.B, TaskId.E] = 4980 := by
  decide

/-- C3.  In both models a job is reported SKIPPED exactly when the Task
C pre-check withheld it, and every skip record carries
`start_time = completion_time = 0`.  In the cyclic model the report
derives SKIPPED from `exec_time == 0 && deadline_missed`, so the
equivalence needs that an executed job's measured duration is positive
(`result.start < result.stop`, which the positive busy-waits of
`workload.c` guarantee); the skip branch itself fires exactly when
`deadline - sample < predicted` for the sensor-derived prediction. -/
theorem c3_skipped_iff_precheck :
    (∀ fs fd lf : Nat, ∀ t : TaskId, ∀ o : TaskOracle,
      o.result.start < o.result.stop →
      (report_status (cyc_record fs fd lf t o) = Status.SKIPPED ↔
        cyc_skip fd t o = true)) ∧
    (∀ fs fd lf : Nat, ∀ t : TaskId, ∀ o : TaskOracle,
      cyc_skip fd t o = true →
      (cyc_record fs fd lf t o).start_time = 0 ∧
      (cyc_record fs fd lf t o).completion_time = 0 ∧
      t = TaskId.C ∧
      (fd : Int) - (o.check_time : Int) <
        (task_c_wcet_us (switch_value o.gpio) : Int)) ∧
    (∀ t : TaskId, ∀ base n : Nat, ∀ o : IterOracle,
      (monitor_status (p_iteration t base n o) = Status.SKIPPED ↔
        p_skip t (p_deadline t base n) o = true)) ∧
    (∀ t : TaskId, ∀ base n : Nat, ∀ o : IterOracle,
      p_skip t (p_deadline t base n) o = true →
      (p_iteration t base n o).start_time = 0 ∧
      (p_iteration t base n o).finish_time = 0 ∧
      t = TaskId.C ∧
      (p_deadline t base n : Int) - (o.check_time : Int) <
        (task_c_wcet_us (switch_value o.gpio) : Int)) := by
  refine ⟨?_, ?_, ?_, ?_⟩
  · intro fs fd lf t o h
    have hne : o.result.stop - o.result.start ≠ 0 :=
      Nat.sub_ne_zero_of_lt h
    by_cases hs : cyc_skip fd t o = true
    · simp [cyc_record, hs, report_status]
    · simp only [Bool.not_eq_true] at hs
      by_cases hm : fd < o.result.stop
      · simp [cyc_record, hs, report_status, hne, hm]
      · simp [cyc_record, hs, report_status, hne, hm]
  · intro fs fd lf t o hs
    have hs' := hs
    simp only [cyc_skip, Bool.and_eq_true, decide_eq_true_eq] at hs'
    exact ⟨by simp [cyc_record, hs], by simp [cyc_record, hs],
      hs'.1, hs'.2⟩
  · intro t base n o
    by_cases hs : p_skip t (p_deadline t base n) o = true
    · simp [p_iteration, hs, monitor_status]
    · simp only [Bool.not_eq_true] at hs
      by_cases hm : p_deadline t base n < o.result.stop
      · simp [p_iteration, hs, monitor_status, hm]
      · simp [p_iteration, hs, monitor_status, hm]
  · intro t base n o hs
    have hs' := hs
    simp only [p_skip, Bool.and_eq_true, decide_eq_true_eq] at hs'
    exact ⟨by simp [p_iteration, hs], by simp [p_iteration, hs],
      hs'.1, hs'.2⟩

/-- Witness for C3: in the cyclic model a benign executed job (frame
deadline 5000, execution 1..2) is not SKIPPED and `cyc_skip` is false;
in the priority model the oracle `w_iter_skip` (sensor 255, clock past
the deadline) makes the pre-check fire and the logged entry is SKIPPED
with zero start and finish times. -/
theorem c3_skipped_iff_precheck_witness :
    w_task_oracle.result.start < w_task_oracle.result.stop ∧
    (report_status (cyc_record 0 5000 0 TaskId.B w_task_oracle) =
        Status.SKIPPED ↔ cyc_skip 5000 TaskId.B w_task_oracle = true) ∧
    p_skip TaskId.C (p_deadline TaskId.C 0 0) w_iter_skip = true ∧
    (p_iteration TaskId.C 0 0 w_iter_skip).start_time = 0 ∧
    (p_iteration TaskId.C 0 0 w_iter_skip).finish_time = 0 :=
  ⟨by decide,
   c3_skipped_iff_precheck.1 0 5000 0 TaskId.B w_task_oracle (by decide),
   by decide,
   (c3_skipped_iff_precheck.2.2.2 TaskId.C 0 0 w_iter_skip (by decide)).1,
   (c3_skipped_iff_precheck.2.2.2 TaskId.C 0 0 w_iter_skip (by decide)).2.1⟩

/-- C4.  For every executed (non-skipped) job the reported outcome is
OK exactly when `completion_time ≤ deadline_time` and MISS exactly when
`completion_time > deadline_time`; the record's deadline is the frame
deadline in the cyclic model and `release_time + period` in the
priority model (every task's configured `deadline_ms` equals its
`period_ms`).  The MISS direction in the cyclic model again needs the
positive measured duration `result.start < result.stop`. -/
theorem c4_ok_miss_iff_deadline :
    (∀ fs fd lf : Nat, ∀ t : TaskId, ∀ o : TaskOracle,
      o.result.start < o.result.stop →
      cyc_skip fd t o = false →
      (cyc_record fs fd lf t o).deadline = fd ∧
      (report_status (cyc_record fs fd lf t o) = Status.OK ↔
        (cyc_record fs fd lf t o).completion_time ≤ fd) ∧
      (report_status (cyc_record fs fd lf t o) = Status.MISS ↔
        fd < (cyc_record fs fd lf t o).completion_time)) ∧
    (∀ t : TaskId, ∀ base n : Nat, ∀ o : IterOracle,
      p_skip t (p_deadline t base n) o = false →
      (p_iteration t base n o).deadline =
        (p_iteration t base n o).release_time +
          (params t).period_ms * 1000 ∧
      (monitor_status (p_iteration t base n o) = Status.OK ↔
        (p_iteration t base n o).finish_time ≤ p_deadline t base n) ∧
      (monitor_status (p_iteration t base n o) = Status.MISS ↔
        p_deadline t base n < (p_iteration t base n o).finish_time)) := by
  constructor
  · intro fs fd lf t o h hs
    have hne : o.result.stop - o.result.start ≠ 0 :=
      Nat.sub_ne_zero_of_lt h
    refine ⟨by simp [cyc_record, hs], ?_, ?_⟩ <;>
      by_cases hm : fd < o.result.stop <;>
        simp [cyc_record, hs, report_status, hne, hm, Nat.not_lt.mp,
          Nat.not_le.mpr, Nat.not_le_of_lt, Nat.le_of_not_lt]
  · intro t base n o hs
    have hdp : (params t).deadline_ms = (params t).period_ms := by
      cases t <;> rfl
    refine ⟨?_, ?_, ?_⟩
    · simp only [p_iteration, hs, Bool.false_eq_true, if_false]
      simp [p_deadline, hdp]
    · by_cases hm : p_deadline t base n < o.result.stop <;>
        simp [p_iteration, hs, monitor_status, hm, Nat.not_le_of_lt,
          Nat.le_of_not_lt]
    · by_cases hm : p_deadline t base n < o.result.stop <;>
        simp [p_iteration, hs, monitor_status, hm]

/-- Witness for C4 at a benign executed job in each model: task B in
frame deadline 5000 finishing at time 2 is OK, and task A's first job
in the priority model finishing at time 2 is OK. -/
theorem c4_ok_miss_iff_deadline_witness :
    w_task_oracle.result.start < w_task_oracle.result.stop ∧
    cyc_skip 5000 TaskId.B w_task_oracle = false ∧
    (report_status (cyc_record 0 5000 0 TaskId.B w_task_oracle) =
        Status.OK ↔
      (cyc_record 0 5000 0 TaskId.B w_task_oracle).completion_time ≤
        5000) ∧
    p_skip TaskId.A (p_deadline TaskId.A 0 0) (w_iter 0) = false ∧
    (monitor_status (p_iteration TaskId.A 0 0 (w_iter 0)) = Status.OK ↔
      (p_iteration TaskId.A 0 0 (w_iter 0)).finish_time ≤
        p_deadline TaskId.A 0 0) :=
  ⟨by decide, by decide,
   (c4_ok_miss_iff_deadline.1 0 5000 0 TaskId.B w_task_oracle (by decide)
     (by decide)).2.1,
   by decide,
   (c4_ok_miss_iff_deadline.2 TaskId.A 0 0 (w_iter 0) (by decide)).2.1⟩

/-- The total miss counter never decreases from one tick to the next. -/
theorem run_total_step (o : Nat → TickOracle) (n : Nat) :
    (run_cyclic o n).misses_total ≤ (run_cyclic o (n + 1)).misses_total := by
  show _ ≤ (frame_callback (run_cyclic o n) (o n)).misses_total
  rw [(frame_callback_parts _ _).1]
  exact frame_tasks_total_le _ _

/-- Any record in the log after one task step was already there or is
the record of that very step. -/
theorem step_task_mem (fs fd lf : Nat) (t : TaskId) (o : TaskOracle)
    (s : CycState) (r : JobRecord) :
    r ∈ (step_task fs fd lf t o s).job_log →
      r ∈ s.job_log ∨ r = cyc_record fs fd lf t o := by
  intro h
  simp only [step_task] at h
  split at h <;>
  · dsimp only at h
    simp only [cyc_append] at h
    split at h
    · rcases List.mem_append.mp h with h1 | h1
      · exact Or.inl h1
      · exact Or.inr (List.mem_singleton.mp h1)
    · exact Or.inl h

/-- Any record in the log after a frame body was already there or
carries that frame's start time as release time. -/
theorem step_tasks_mem (fs fd lf : Nat) (ts : List TaskId)
    (orc : Nat → TaskOracle) :
    ∀ i s r, r ∈ (step_tasks fs fd lf ts orc i s).job_log →
      r ∈ s.job_log ∨ r.release_time = fs := by
  induction ts with
  | nil => intro i s r h; exact Or.inl h
  | cons t rest ih =>
      intro i s r h
      rcases ih (i + 1) (step_task fs fd lf t (orc i) s) r h with h1 | h1
      · rcases step_task_mem fs fd lf t (orc i) s r h1 with h2 | h2
        · exact Or.inl h2
        · exact Or.inr (h2 ▸ cyc_record_release fs fd lf t (orc i))
      · exact Or.inr h1

/-- Below capacity, one task step appends exactly one record. -/
theorem step_task_len (fs fd lf : Nat) (t : TaskId) (o : TaskOracle)
    (s : CycState) (h : s.job_log.length < MAX_JOBS_PER_HYPERPERIOD) :
    (step_task fs fd lf t o s).job_log.length = s.job_log.length + 1 := by
  simp only [step_task]
  split <;> (dsimp only; simp [cyc_append, h])

/-- One task step raises the per-hyperperiod miss counter by at most
one. -/
theorem step_task_cur_le (fs fd lf : Nat) (t : TaskId) (o : TaskOracle)
    (s : CycState) :
    (step_task fs fd lf t o s).misses_current ≤ s.misses_current + 1 := by
  simp only [step_task]
  split <;> (dsimp only; omega)

/-- Below capacity a frame body appends exactly one record per task,
and it raises the per-hyperperiod miss counter by at most one per task. -/
theorem step_tasks_len_cur (fs fd lf : Nat) (ts : List TaskId)
    (orc : Nat → TaskOracle) :
    ∀ i s, s.job_log.length + ts.length ≤ MAX_JOBS_PER_HYPERPERIOD →
      (step_tasks fs fd lf ts orc i s).job_log.length =
        s.job_log.length + ts.length ∧
      (step_tasks fs fd lf ts orc i s).misses_current ≤
        s.misses_current + ts.length := by
  induction ts with
  | nil => intro i s h; simpa using ⟨rfl, Nat.le_refl _⟩
  | cons t rest ih =>
      intro i s h
      simp only [List.length_cons] at h
      have hlt : s.job_log.length < MAX_JOBS_PER_HYPERPERIOD := by omega
      have h1 := step_task_len fs fd lf t (orc i) s hlt
      have h2 := step_task_cur_le fs fd lf t (orc i) s
      have h3 := ih (i + 1) (step_task fs fd lf t (orc i) s)
        (by rw [h1]; omega)
      simp only [step_tasks, List.length_cons]
      constructor
      · rw [h3.1, h1]; omega
      · calc (step_tasks fs fd lf rest orc (i + 1)
              (step_task fs fd lf t (orc i) s)).misses_current
            ≤ (step_task fs fd lf t (orc i) s).misses_current +
                rest.length := h3.2
          _ ≤ s.misses_current + 1 + rest.length :=
              Nat.add_le_add_right h2 _
          _ = s.misses_current + (rest.length + 1) := by omega

/-- Below capacity the frame body appends exactly one record per
scheduled task of the active frame, and raises the per-hyperperiod miss
counter by at most that many. -/
theorem frame_tasks_len_cur (s : CycState) (o : TickOracle)
    (h : s.job_log.length +
      (schedule.getD (s.current_frame % NUM_FRAMES) []).length ≤
        MAX_JOBS_PER_HYPERPERIOD) :
    (frame_tasks s o).job_log.length =
      s.job_log.length +
        (schedule.getD (s.current_frame % NUM_FRAMES) []).length ∧
    (frame_tasks s o).misses_current ≤
      s.misses_current +
        (schedule.getD (s.current_frame % NUM_FRAMES) []).length := by
  simp only [frame_tasks]
  exact step_tasks_len_cur _ _ _ _ _ 0
    { s with scheduler_start_time :=
        if s.current_frame = 0 then o.entry_time
        else s.scheduler_start_time } h

/-- Arithmetic facts about the schedule table: processing frame `m`
adds its size to the running record count, and the count never exceeds
the log capacity (the full hyperperiod has 44 jobs and the log holds
50). -/
theorem logged_in_facts :
    ∀ m, m < NUM_FRAMES →
      logged_in m + (schedule.getD m []).length = logged_in (m + 1) ∧
      logged_in (m + 1) ≤ MAX_JOBS_PER_HYPERPERIOD := by
  decide

/-- Invariant of the cyclic run: after `n` ticks the log holds exactly
the records of the frames processed since the last hyperperiod boundary
(so the capacity bound is never hit), and the per-hyperperiod miss
counter is at most the number of logged records. -/
theorem run_inv (o : Nat → TickOracle) :
    ∀ n, (run_cyclic o n).job_log.length = logged_in (n % NUM_FRAMES) ∧
      (run_cyclic o n).misses_current ≤ logged_in (n % NUM_FRAMES) := by
  intro n
  induction n with
  | zero => exact ⟨rfl, Nat.le_refl _⟩
  | succ n ih =>
      have hcf := run_current_frame o n
      have hm : n % NUM_FRAMES < NUM_FRAMES :=
        Nat.mod_lt _ (by decide)
      obtain ⟨hstep, hcap⟩ := logged_in_facts (n % NUM_FRAMES) hm
      have hcap' : (run_cyclic o n).job_log.length +
          (schedule.getD ((run_cyclic o n).current_frame % NUM_FRAMES)
            []).length ≤ MAX_JOBS_PER_HYPERPERIOD := by
        rw [hcf, ih.1, hstep]; exact hcap
      have hft := frame_tasks_len_cur (run_cyclic o n) (o n) hcap'
      have hfc := (frame_callback_parts (run_cyclic o n) (o n)).2.2.2
      rw [hcf] at hft
      have hrun : run_cyclic o (n + 1) =
          frame_callback (run_cyclic o n) (o n) := rfl
      rw [hrun]
      by_cases hb : ((run_cyclic o n).current_frame + 1) % NUM_FRAMES = 0
      · rw [if_pos hb] at hfc
        rw [hcf] at hb
        rw [hfc.1, hfc.2, hb]
        exact ⟨rfl, Nat.le_refl _⟩
      · rw [if_neg hb] at hfc
        rw [hcf] at hb
        have hb' : (n + 1) % NUM_FRAMES = n % NUM_FRAMES + 1 := by
          simp only [NUM_FRAMES] at *
          omega
        rw [hfc.1, hfc.2, hb']
        constructor
        · rw [hft.1, ih.1, hstep]
        · calc (frame_tasks (run_cyclic o n) (o n)).misses_current
              ≤ (run_cyclic o n).misses_current +
                  (schedule.getD (n % NUM_FRAMES) []).length := hft.2
            _ ≤ logged_in (n % NUM_FRAMES) +
                  (schedule.getD (n % NUM_FRAMES) []).length :=
                Nat.add_le_add_right ih.2 _
            _ = logged_in (n % NUM_FRAMES + 1) := hstep

/-- `periodic_task` submits exactly one entry per loop iteration. -/
theorem run_task_log_length (t : TaskId) (base : Nat)
    (orc : Nat → IterOracle) :
    ∀ n, (run_task_log t base orc n).length = n := by
  intro n
  induction n with
  | zero => rfl
  | succ n ih => simp [run_task_log, ih]

/-- The `k`-th entry task `t` ever submits is the entry of its `k`-th
loop iteration. -/
theorem run_task_log_getD (t : TaskId) (base : Nat)
    (orc : Nat → IterOracle) :
    ∀ n k, k < n →
      (run_task_log t base orc n).getD k dflt_entry =
        p_iteration t base k (orc k) := by
  intro n
  induction n with
  | zero => intro k h; omega
  | succ n ih =>
      intro k hk
      have hlen := run_task_log_length t base orc n
      by_cases h : k < n
      · show (run_task_log t base orc n ++
          [p_iteration t base n (orc n)]).getD k dflt_entry = _
        rw [List.getD_eq_getElem?_getD,
          List.getElem?_append_left (by rw [hlen]; exact h),
          ← List.getD_eq_getElem?_getD]
        exact ih k h
      · have hkn : k = n := by omega
        subst hkn
        show (run_task_log t base orc k ++
          [p_iteration t base k (orc k)]).getD k dflt_entry = _
        have hc := List.getElem?_concat_length (run_task_log t base orc k)
          (p_iteration t base k (orc k))
        rw [hlen] at hc
        rw [List.getD_eq_getElem?_getD, hc]
        rfl

/-- C5.  In the cyclic model every pre-check skip and every executed
job finishing past the frame deadline increments both
`deadline_misses_current` and `deadline_misses_total` by exactly one
(and an on-time job changes neither); at each hyperperiod boundary
(`current_frame % NUM_FRAMES = 0` after the increment) the
per-hyperperiod counter is reset to zero while the total passes through
the boundary untouched, and the total is monotonically non-decreasing
over the whole run. -/
theorem c5_miss_counting :
    (∀ fs fd lf : Nat, ∀ t : TaskId, ∀ o : TaskOracle, ∀ s : CycState,
      cyc_skip fd t o = true →
      (step_task fs fd lf t o s).misses_current = s.misses_current + 1 ∧
      (step_task fs fd lf t o s).misses_total = s.misses_total + 1) ∧
    (∀ fs fd lf : Nat, ∀ t : TaskId, ∀ o : TaskOracle, ∀ s : CycState,
      cyc_skip fd t o = false →
      (fd < o.result.stop →
        (step_task fs fd lf t o s).misses_current = s.misses_current + 1 ∧
        (step_task fs fd lf t o s).misses_total = s.misses_total + 1) ∧
      (o.result.stop ≤ fd →
        (step_task fs fd lf t o s).misses_current = s.misses_current ∧
        (step_task fs fd lf t o s).misses_total = s.misses_total)) ∧
    (∀ o : Nat → TickOracle, ∀ n : Nat, (n + 1) % NUM_FRAMES = 0 →
      (run_cyclic o (n + 1)).misses_current = 0 ∧
      (run_cyclic o (n + 1)).misses_total =
        (frame_tasks (run_cyclic o n) (o n)).misses_total) ∧
    (∀ o : Nat → TickOracle, ∀ n m : Nat, n ≤ m →
      (run_cyclic o n).misses_total ≤ (run_cyclic o m).misses_total) := by
  refine ⟨?_, ?_, ?_, ?_⟩
  · intro fs fd lf t o s hs
    have hcm : cyc_counts_miss fd t o = true := by
      simp [cyc_counts_miss, hs]
    simp [step_task, hcm]
  · intro fs fd lf t o s hs
    constructor
    · intro hm
      have hcm : cyc_counts_miss fd t o = true := by
        simp [cyc_counts_miss, hm]
      simp [step_task, hcm]
    · intro hm
      have hcm : cyc_counts_miss fd t o = false := by
        simp [cyc_counts_miss, hs, Nat.not_lt.mpr hm]
      simp [step_task, hcm]
  · intro o n hb
    have hcf := run_current_frame o n
    have hfc := frame_callback_parts (run_cyclic o n) (o n)
    have hif := hfc.2.2.2
    rw [hcf, if_pos hb] at hif
    have hrun : run_cyclic o (n + 1) =
        frame_callback (run_cyclic o n) (o n) := rfl
    rw [hrun]
    exact ⟨hif.2, hfc.1⟩
  · intro o n m h
    induction m, h using Nat.le_induction with
    | base => exact Nat.le_refl _
    | succ m hm ih => exact ih.trans (run_total_step o m)

/-- Witness for C5: a fired pre-check (sensor 255, zero slack)
increments the per-hyperperiod counter from 0 to 1; tick 20 is a
hyperperiod boundary and resets it; and the total is monotone between
ticks 2 and 5 of a benign run. -/
theorem c5_miss_counting_witness :
    cyc_skip 5000 TaskId.C w_skip_oracle = true ∧
    (step_task 0 5000 0 TaskId.C w_skip_oracle
      init_state).misses_current = init_state.misses_current + 1 ∧
    (19 + 1) % NUM_FRAMES = 0 ∧
    (run_cyclic w_tick (19 + 1)).misses_current = 0 ∧
    (2 : Nat) ≤ 5 ∧
    (run_cyclic w_tick 2).misses_total ≤
      (run_cyclic w_tick 5).misses_total :=
  ⟨by decide,
   (c5_miss_counting.1 0 5000 0 TaskId.C w_skip_oracle init_state
     (by decide)).1,
   by decide,
   (c5_miss_counting.2.2.1 w_tick 19 (by decide)).1,
   by decide,
   c5_miss_counting.2.2.2 w_tick 2 5 (by decide)⟩

/-- One task step extends the log by a (possibly dropped) record whose
release time is the frame start. -/
theorem step_task_log_split (fs fd lf : Nat) (t : TaskId) (o : TaskOracle)
    (s : CycState) :
    ∃ l, (step_task fs fd lf t o s).job_log = s.job_log ++ l ∧
      ∀ r ∈ l, r.release_time = fs := by
  simp only [step_task]
  split <;>
  · dsimp only
    simp only [cyc_append]
    split
    · refine ⟨[cyc_record fs fd lf t o], rfl, ?_⟩
      intro r hr
      rw [List.mem_singleton.mp hr]
      exact cyc_record_release fs fd lf t o
    · exact ⟨[], by simp, by simp⟩

/-- A frame-body loop extends the log by records whose release time is
the frame start. -/
theorem step_tasks_log_split (fs fd lf : Nat) (ts : List TaskId)
    (orc : Nat → TaskOracle) :
    ∀ i s, ∃ l,
      (step_tasks fs fd lf ts orc i s).job_log = s.job_log ++ l ∧
      ∀ r ∈ l, r.release_time = fs := by
  induction ts with
  | nil => intro i s; exact ⟨[], by simp [step_tasks], by simp⟩
  | cons t rest ih =>
      intro i s
      obtain ⟨l1, h1, h1r⟩ := step_task_log_split fs fd lf t (orc i) s
      obtain ⟨l2, h2, h2r⟩ := ih (i + 1) (step_task fs fd lf t (orc i) s)
      refine ⟨l1 ++ l2, ?_, ?_⟩
      · show (step_tasks fs fd lf rest orc (i + 1)
          (step_task fs fd lf t (orc i) s)).job_log = _
        rw [h2, h1, List.append_assoc]
      · intro r hr
        rcases List.mem_append.mp hr with h | h
        · exact h1r r h
        · exact h2r r h

/-- The frame body extends the log by records whose release time is
`base + (current_frame * 5000) % 2^32`, the uint32-wrapped offset of
`main.c` line 162. -/
theorem frame_tasks_log_split (s : CycState) (o : TickOracle) :
    ∃ l, (frame_tasks s o).job_log = s.job_log ++ l ∧
      ∀ r ∈ l, r.release_time =
        (if s.current_frame = 0 then o.entry_time
         else s.scheduler_start_time) +
          (s.current_frame * (MINOR_FRAME_MS * 1000)) % 2 ^ 32 := by
  simp only [frame_tasks]
  exact step_tasks_log_split _ _ _ _ _ 0
    { s with scheduler_start_time :=
        if s.current_frame = 0 then o.entry_time
        else s.scheduler_start_time }

/-- C7 counterexample.  The claimed all-tick additive formula
`release = base + k * minor_frame_length` is false of the cyclic model:
`main.c` line 162 computes the offset `current_frame * MINOR_FRAME_MS *
1000` in uint32 (`current_frame` is `uint32_t`), which wraps mod 2^32
from tick 858994 (about 71.6 minutes of runtime).  At tick 858994 the
frame body appends a nonempty batch of records (frame 14, two tasks,
log far below capacity) and every one of them carries release time
`base + 2704`, not `base + 858994 * 5000 = base + 4294970000`. -/
theorem c7_counterexample_uint32_wrap :
    ∃ l, (frame_tasks (run_cyclic w_tick 858994)
        (w_tick 858994)).job_log =
      (run_cyclic w_tick 858994).job_log ++ l ∧
      l ≠ [] ∧
      ∀ r ∈ l, r.release_time ≠
        (w_tick 0).entry_time + 858994 * (MINOR_FRAME_MS * 1000) := by
  obtain ⟨l, hl, hr⟩ :=
    frame_tasks_log_split (run_cyclic w_tick 858994) (w_tick 858994)
  have hcf := run_current_frame w_tick 858994
  have hsst : (run_cyclic w_tick 858994).scheduler_start_time =
      (w_tick 0).entry_time := run_sst w_tick 858993
  refine ⟨l, hl, ?_, ?_⟩
  · have hm : 858994 % NUM_FRAMES < NUM_FRAMES :=
      Nat.mod_lt _ (by decide)
    obtain ⟨hstep, hcap⟩ := logged_in_facts (858994 % NUM_FRAMES) hm
    have ih := run_inv w_tick 858994
    have hcap' : (run_cyclic w_tick 858994).job_log.length +
        (schedule.getD ((run_cyclic w_tick 858994).current_frame %
          NUM_FRAMES) []).length ≤ MAX_JOBS_PER_HYPERPERIOD := by
      rw [hcf, ih.1, hstep]; exact hcap
    have hft := frame_tasks_len_cur (run_cyclic w_tick 858994)
      (w_tick 858994) hcap'
    rw [hcf] at hft
    intro hnil
    rw [hnil, List.append_nil] at hl
    have hlen := hft.1
    rw [hl] at hlen
    have hsz : (schedule.getD (858994 % NUM_FRAMES) []).length = 2 := by
      decide
    rw [hsz] at hlen
    omega
  · intro r hrm
    have h1 := hr r hrm
    rw [hcf, if_neg (by decide), hsst] at h1
    rw [h1]
    decide

/-- C7 amended.  Release times are computed additively from the fixed
base captured at the first activation, never from the current clock —
but in the cyclic model the per-tick offset is the uint32 product
`current_frame * MINOR_FRAME_MS * 1000`: for any oracle, every record
appended at tick `n` carries release time
`base + (n * 5000) % 2^32`, which coincides with the claimed
`base + n * 5000` exactly while `n * 5000 < 2^32` (the first 858994
ticks).  In the priority model the arithmetic is 64-bit throughout
(`main.c` line 210 casts `job_count` to `uint64_t`), so the `k`-th
entry a task ever submits carries release time `base + k * period`
unconditionally, regardless of how long prior executions took. -/
theorem c7_release_times_additive_mod32 :
    (∀ (o : Nat → TickOracle) (n : Nat) (r : JobRecord),
      r ∈ (frame_tasks (run_cyclic o n) (o n)).job_log →
      r ∈ (run_cyclic o n).job_log ∨
        r.release_time = (o 0).entry_time +
          (n * (MINOR_FRAME_MS * 1000)) % 2 ^ 32) ∧
    (∀ (o : Nat → TickOracle) (n : Nat) (r : JobRecord),
      n * (MINOR_FRAME_MS * 1000) < 2 ^ 32 →
      r ∈ (frame_tasks (run_cyclic o n) (o n)).job_log →
      r ∈ (run_cyclic o n).job_log ∨
        r.release_time =
          (o 0).entry_time + n * (MINOR_FRAME_MS * 1000)) ∧
    (∀ (t : TaskId) (base : Nat) (orc : Nat → IterOracle) (n k : Nat),
      k < n →
      ((run_task_log t base orc n).getD k dflt_entry).release_time =
        base + k * ((params t).period_ms * 1000)) := by
  have hcyc : ∀ (o : Nat → TickOracle) (n : Nat) (r : JobRecord),
      r ∈ (frame_tasks (run_cyclic o n) (o n)).job_log →
      r ∈ (run_cyclic o n).job_log ∨
        r.release_time = (o 0).entry_time +
          (n * (MINOR_FRAME_MS * 1000)) % 2 ^ 32 := by
    intro o n r h
    have hcf := run_current_frame o n
    simp only [frame_tasks] at h
    rcases step_tasks_mem _ _ _ _ _ 0 _ r h with h1 | h1
    · exact Or.inl h1
    · right
      rw [h1, hcf]
      cases n with
      | zero => simp
      | succ k =>
          rw [if_neg (Nat.succ_ne_zero k), run_sst o k]
  refine ⟨hcyc, ?_, ?_⟩
  · intro o n r hlt h
    rcases hcyc o n r h with h1 | h1
    · exact Or.inl h1
    · right
      rw [h1, Nat.mod_eq_of_lt hlt]
  · intro t base orc n k hk
    rw [run_task_log_getD t base orc n k hk, p_iteration_release]
    rfl

/-- Witness for C7 amended: the record of Task B in the very first
frame is in the log produced by tick 0 and satisfies both the wrapped
and, since `0 * 5000 < 2^32`, the plain additive release formula; Task
A's first priority-model entry has release time `0 + 0 * period`. -/
theorem c7_release_times_additive_mod32_witness :
    cyc_record 0 5000 0 TaskId.B w_task_oracle ∈
      (frame_tasks (run_cyclic w_tick 0) (w_tick 0)).job_log ∧
    (cyc_record 0 5000 0 TaskId.B w_task_oracle ∈
        (run_cyclic w_tick 0).job_log ∨
      (cyc_record 0 5000 0 TaskId.B w_task_oracle).release_time =
        (w_tick 0).entry_time +
          (0 * (MINOR_FRAME_MS * 1000)) % 2 ^ 32) ∧
    0 * (MINOR_FRAME_MS * 1000) < 2 ^ 32 ∧
    (cyc_record 0 5000 0 TaskId.B w_task_oracle ∈
        (run_cyclic w_tick 0).job_log ∨
      (cyc_record 0 5000 0 TaskId.B w_task_oracle).release_time =
        (w_tick 0).entry_time + 0 * (MINOR_FRAME_MS * 1000)) ∧
    (0 : Nat) < 1 ∧
    ((run_task_log TaskId.A 0 w_iter 1).getD 0 dflt_entry).release_time =
      0 + 0 * ((params TaskId.A).period_ms * 1000) :=
  ⟨by decide,
   c7_release_times_additive_mod32.1 w_tick 0 _ (by decide),
   by decide,
   c7_release_times_additive_mod32.2.1 w_tick 0 _ (by decide) (by decide),
   by decide,
   c7_release_times_additive_mod32.2.2 TaskId.A 0 w_iter 1 0 (by decide)⟩

/-- C8.  At every hyperperiod boundary, at the moment the report is
produced (after the tasks of the last frame, before the reset), the
per-hyperperiod miss counter is at most the number of job records in
the log: the full hyperperiod logs 44 records, below the capacity 50,
so every counted miss also logged a record. -/
theorem c8_misses_le_job_count (o : Nat → TickOracle) (n : Nat)
    (hb : (n + 1) % NUM_FRAMES = 0) :
    (frame_tasks (run_cyclic o n) (o n)).misses_current ≤
      (frame_tasks (run_cyclic o n) (o n)).job_log.length := by
  have hcf := run_current_frame o n
  have hm : n % NUM_FRAMES < NUM_FRAMES := Nat.mod_lt _ (by decide)
  obtain ⟨hstep, hcap⟩ := logged_in_facts (n % NUM_FRAMES) hm
  have ih := run_inv o n
  have hcap' : (run_cyclic o n).job_log.length +
      (schedule.getD ((run_cyclic o n).current_frame % NUM_FRAMES)
        []).length ≤ MAX_JOBS_PER_HYPERPERIOD := by
    rw [hcf, ih.1, hstep]; exact hcap
  have hft := frame_tasks_len_cur (run_cyclic o n) (o n) hcap'
  rw [hcf] at hft
  rw [hft.1]
  refine hft.2.trans (Nat.add_le_add_right ?_ _)
  rw [ih.1]
  exact ih.2

/-- Witness for C8 at the first hyperperiod boundary (tick 19) of a
benign run. -/
theorem c8_misses_le_job_count_witness :
    (19 + 1) % NUM_FRAMES = 0 ∧
    (frame_tasks (run_cyclic w_tick 19) (w_tick 19)).misses_current ≤
      (frame_tasks (run_cyclic w_tick 19) (w_tick 19)).job_log.length :=
  ⟨by decide, c8_misses_le_job_count w_tick 19 (by decide)⟩

/-- C10.  When the cyclic log is at capacity, a missed or skipped job
leaves the log unchanged but still increments both miss counters and
toggles the red LED, so the counters are independent of log capacity;
in the priority model an iteration hitting a full log leaves the buffer
unchanged, and since the monitor's miss and skip totals are computed
solely from the buffered entries (`monitor_misses`/`monitor_skipped`
are functions of the log alone), the dropped record leaves no trace in
the report. -/
theorem c10_log_capacity_independence :
    (∀ fs fd lf : Nat, ∀ t : TaskId, ∀ o : TaskOracle, ∀ s : CycState,
      MAX_JOBS_PER_HYPERPERIOD ≤ s.job_log.length →
      (step_task fs fd lf t o s).job_log = s.job_log ∧
      (cyc_counts_miss fd t o = true →
        (step_task fs fd lf t o s).misses_current =
          s.misses_current + 1 ∧
        (step_task fs fd lf t o s).misses_total = s.misses_total + 1 ∧
        (step_task fs fd lf t o s).red_toggles = s.red_toggles + 1)) ∧
    (∀ t : TaskId, ∀ base n : Nat, ∀ o : IterOracle,
      ∀ log : List LogEntry,
      MAX_LOGS_PER_HYPERPERIOD ≤ log.length →
      p_step t base n o log = log ∧
      monitor_misses (p_step t base n o log) = monitor_misses log ∧
      monitor_skipped (p_step t base n o log) = monitor_skipped log) := by
  constructor
  · intro fs fd lf t o s h
    have hnl : ¬ s.job_log.length < MAX_JOBS_PER_HYPERPERIOD :=
      Nat.not_lt.mpr h
    constructor
    · simp only [step_task]
      split <;> (dsimp only; simp [cyc_append, hnl])
    · intro hcm
      simp [step_task, hcm]
  · intro t base n o log h
    have h1 : p_step t base n o log = log := by
      simp [p_step, p_append, Nat.not_lt.mpr h]
    exact ⟨h1, by rw [h1], by rw [h1]⟩

/-- Witness for C10: with a log of 50 records, a fired Task C pre-check
leaves the cyclic log unchanged, and a priority-model iteration leaves
the full buffer unchanged. -/
theorem c10_log_capacity_independence_witness :
    MAX_JOBS_PER_HYPERPERIOD ≤ w_full_state.job_log.length ∧
    (step_task 0 5000 0 TaskId.C w_skip_oracle w_full_state).job_log =
      w_full_state.job_log ∧
    MAX_LOGS_PER_HYPERPERIOD ≤ w_full_p_log.length ∧
    p_step TaskId.A 0 0 (w_iter 0) w_full_p_log = w_full_p_log :=
  ⟨by decide,
   (c10_log_capacity_independence.1 0 5000 0 TaskId.C w_skip_oracle
     w_full_state (by decide)).1,
   by decide,
   (c10_log_capacity_independence.2 TaskId.A 0 0 (w_iter 0)
     w_full_p_log (by decide)).1⟩

end Lab1
